import Mathlib

/-!
Verification of the tax-proportion and yield-computation module of the
mmf_optimizer repository (`src/logic.py`).  Python floats are modelled as
exact rationals (`ℚ`); fund records are modelled as a structure whose
optional composition fields are `Option ℚ` (`none` = absent or null, read
through `Option.getD 0`, mirroring `fund.get(key, 0) or 0`).
-/

namespace MMF

/-- Membership test of a character list inside another, starting at the
head: `charsStartWith needle hay` is true when `needle` begins `hay`. -/
def charsStartWith : List Char → List Char → Bool
  | [], _ => true
  | _ :: _, [] => false
  | a :: as, b :: bs => a = b && charsStartWith as bs

/-- Containment of `needle` anywhere inside `hay`, character lists. -/
def charsContains : List Char → List Char → Bool
  | [], needle => charsStartWith needle []
  | h :: t, needle => charsStartWith needle (h :: t) || charsContains t needle

/-- Lower-casing of a string, character by character (model of Python
`str.lower` on the ASCII names involved). -/
def lowerStr (s : String) : String :=
  ⟨s.toList.map Char.toLower⟩

/-- Model of the Python test `needle.lower() in hay.lower()`. -/
def strInLower (needle hay : String) : Bool :=
  charsContains (hay.toList.map Char.toLower) (needle.toList.map Char.toLower)

/-- Modelled from the external `us` package: `us.states.lookup` restricted
to the two-letter upper-case postal abbreviations of the fifty U.S. states,
returning the state's full English name; an unrecognised code yields
`none` (the code only ever reaches this lookup for codes other than
"GEN", "NONE" and "DC"). -/
def us_states_lookup (code : String) : Option String :=
  (([("AL", "Alabama"), ("AK", "Alaska"), ("AZ", "Arizona"),
     ("AR", "Arkansas"), ("CA", "California"), ("CO", "Colorado"),
     ("CT", "Connecticut"), ("DE", "Delaware"), ("FL", "Florida"),
     ("GA", "Georgia"), ("HI", "Hawaii"), ("ID", "Idaho"),
     ("IL", "Illinois"), ("IN", "Indiana"), ("IA", "Iowa"),
     ("KS", "Kansas"), ("KY", "Kentucky"), ("LA", "Louisiana"),
     ("ME", "Maine"), ("MD", "Maryland"), ("MA", "Massachusetts"),
     ("MI", "Michigan"), ("MN", "Minnesota"), ("MS", "Mississippi"),
     ("MO", "Missouri"), ("MT", "Montana"), ("NE", "Nebraska"),
     ("NV", "Nevada"), ("NH", "New Hampshire"), ("NJ", "New Jersey"),
     ("NM", "New Mexico"), ("NY", "New York"), ("NC", "North Carolina"),
     ("ND", "North Dakota"), ("OH", "Ohio"), ("OK", "Oklahoma"),
     ("OR", "Oregon"), ("PA", "Pennsylvania"), ("RI", "Rhode Island"),
     ("SC", "South Carolina"), ("SD", "South Dakota"), ("TN", "Tennessee"),
     ("TX", "Texas"), ("UT", "Utah"), ("VT", "Vermont"),
     ("VA", "Virginia"), ("WA", "Washington"), ("WV", "West Virginia"),
     ("WI", "Wisconsin"), ("WY", "Wyoming")] : List (String × String)).find?
    (fun p => p.1 = code)).map (·.2)

/-- Fund record, `src/logic.py`: the fields the tax-proportion module
reads.  Composition percentages and the category are optional, `none`
standing for an absent or null entry of the underlying dict. -/
structure FundRecord where
  name : String
  category : Option String
  variableRateDemandNote : Option ℚ
  otherMunicipalSecurity : Option ℚ
  tenderOptionBond : Option ℚ
  investmentCompany : Option ℚ
  nonFinancialCompanyCommercialPaper : Option ℚ
  usTreasuryDebt : Option ℚ
  usGovernmentAgencyDebt : Option ℚ
  deriving DecidableEq

/-- Four tax proportions, `src/logic.py` dataclass `TaxProportions`. -/
structure TaxProportions where
  ps : ℚ
  pm : ℚ
  pg : ℚ
  pt : ℚ
  deriving DecidableEq

/-- States applying the fifty-percent rule, `src/logic.py` line 5. -/
def FIFTY_PERCENT_STATES : List String := ["CA", "NY", "CT"]

/-- Scanning loop of `get_marginal_rate`: walk the brackets in order,
replacing the candidate rate while `income >= threshold`, stopping at the
first bracket whose threshold exceeds the income. -/
def marginalScan (income : ℚ) (current : ℚ) : List (ℚ × ℚ) → ℚ
  | [] => current
  | (threshold, rate) :: rest =>
    if income ≥ threshold then marginalScan income rate rest else current

/-- Model of `get_marginal_rate` (`src/logic.py` lines 22-30).  The Python
code first evaluates `brackets[0][1]`, which raises `IndexError` on an
empty table; fallibility is made explicit with `Option`. -/
def get_marginal_rate (income : ℚ) (brackets : List (ℚ × ℚ)) : Option ℚ :=
  match brackets with
  | [] => none
  | (_, r0) :: _ => some (marginalScan income r0 brackets)

/-- Model of `find_state_in_fund_name` (`src/logic.py` lines 33-41). -/
def find_state_in_fund_name (fund : FundRecord) (state : String) : Bool :=
  if state = "GEN" ∨ state = "NONE" then false
  else if state = "DC" then true
  else
    match us_states_lookup state with
    | none => false
    | some nm => strInLower nm fund.name

/-- Model of `calculate_muni_percent` (`src/logic.py` lines 44-54). -/
def calculate_muni_percent (fund : FundRecord) : ℚ :=
  if ¬ (fund.category = some "OtherTaxExempt" ∨ fund.category = some "SingleState")
  then 0
  else
    fund.variableRateDemandNote.getD 0 + fund.otherMunicipalSecurity.getD 0 +
      fund.tenderOptionBond.getD 0 + fund.investmentCompany.getD 0 +
      fund.nonFinancialCompanyCommercialPaper.getD 0

/-- Model of `calculate_ps` (`src/logic.py` lines 57-62). -/
def calculate_ps (fund : FundRecord) (state : String) : ℚ :=
  let in_state_muni := find_state_in_fund_name fund state
  let muni_percent := calculate_muni_percent fund
  if in_state_muni ∧ (lowerStr state ≠ "nj" ∨ muni_percent ≥ 0.8)
  then muni_percent else 0

/-- Model of `calculate_pm` (`src/logic.py` lines 65-67). -/
def calculate_pm (fund : FundRecord) (state : String) : ℚ :=
  let in_state_muni := find_state_in_fund_name fund state
  if ¬ in_state_muni then calculate_muni_percent fund else 0

/-- Model of `calculate_pg` (`src/logic.py` lines 70-76). -/
def calculate_pg (fund : FundRecord) (state : String) : ℚ :=
  let usgo_percent := fund.usTreasuryDebt.getD 0 + fund.usGovernmentAgencyDebt.getD 0
  if state ∈ FIFTY_PERCENT_STATES ∧ usgo_percent < 0.5 then 0 else usgo_percent

/-- Model of `calculate_tax_proportions` (`src/logic.py` lines 79-85). -/
def calculate_tax_proportions (fund : FundRecord) (state : String) : TaxProportions :=
  let ps := calculate_ps fund state
  let pm := calculate_pm fund state
  let pg := calculate_pg fund state
  ⟨ps, pm, pg, 1 - (ps + pm + pg)⟩

/-- Model of `calculate_after_tax_yield` (`src/logic.py` lines 88-102). -/
def calculate_after_tax_yield (fund_yield fed_rate state_rate ps pm pg pt : ℚ) : ℚ :=
  fund_yield *
    (ps + pm * (1 - state_rate) + pg * (1 - fed_rate) +
      pt * (1 - fed_rate - state_rate))

/-- Model of `calculate_tax_equivalent_yield` (`src/logic.py` lines
105-119). -/
def calculate_tax_equivalent_yield
    (fund_yield fed_rate state_rate ps pm pg pt : ℚ) : ℚ :=
  let denom := 1 - fed_rate - state_rate
  if denom ≤ 0 then fund_yield
  else
    fund_yield *
      (ps / denom + pm * (1 - state_rate) / denom + pg * (1 - fed_rate) / denom + pt)

/-- Specification-side description of the marginal-rate resolver, written
from the spec's words: the rate of the last bracket whose threshold is at
most the income, and the first bracket's rate when the income lies below
every threshold. -/
def marginalRateSpec (income : ℚ) (brackets : List (ℚ × ℚ)) : Option ℚ :=
  match (brackets.filter fun b => decide (b.1 ≤ income)).getLast? with
  | some b => some b.2
  | none => brackets.head?.map Prod.snd

/-- Sample fund for witnesses: a New York single-state municipal fund with
its whole composition in variable-rate demand notes. -/
def nyFund : FundRecord :=
  ⟨"Vanguard New York Municipal Money Market Fund", some "SingleState",
   some 1, none, none, none, none, none, none⟩

/-- Sample fund for witnesses: a New Jersey single-state municipal fund
whose municipal share is 1/2, strictly between 0 and the 0.8 threshold. -/
def njFund : FundRecord :=
  ⟨"Vanguard New Jersey Municipal Money Market Fund", some "SingleState",
   some (1/2), none, none, none, none, none, none⟩

end MMF

namespace MMF

/-! Helper lemmas about the bracket-scanning loop. -/

/-- The scanning loop computes the rate of the last bracket whose
threshold is at most the income, defaulting to the starting candidate,
provided the brackets are sorted ascending by threshold. -/
lemma marginalScan_filter (income : ℚ) (bs : List (ℚ × ℚ)) :
    List.Pairwise (fun x y => x.1 ≤ y.1) bs → ∀ cur : ℚ,
      marginalScan income cur bs =
        (((bs.filter fun b => decide (b.1 ≤ income)).getLast?).map Prod.snd).getD cur := by
  induction bs with
  | nil => intro _ cur; rfl
  | cons hd rest ih =>
    intro hp cur
    obtain ⟨t, r⟩ := hd
    obtain ⟨hhead, htail⟩ := List.pairwise_cons.mp hp
    by_cases hti : t ≤ income
    · rw [marginalScan, if_pos hti, ih htail r,
        List.filter_cons_of_pos (by simpa using hti)]
      cases hfe : rest.filter fun b => decide (b.1 ≤ income) with
      | nil => simp [hfe]
      | cons x xs =>
        obtain ⟨y, hy⟩ := Option.isSome_iff_exists.mp
          (List.getLast?_isSome.mpr (List.cons_ne_nil x xs))
        simp [hfe, List.getLast?_cons_cons, hy]
    · have hrest : (rest.filter fun b => decide (b.1 ≤ income)) = [] := by
        refine List.filter_eq_nil_iff.mpr fun a ha => ?_
        have h1 : t ≤ a.1 := hhead a ha
        simp only [decide_eq_true_eq]
        intro hle
        exact hti (le_trans h1 hle)
      rw [marginalScan, if_neg hti,
        List.filter_cons_of_neg (by simpa using hti), hrest]
      rfl

/-- The scanning loop never returns below its starting candidate when the
candidate chains below the rate sequence. -/
lemma le_marginalScan (x : ℚ) (bs : List (ℚ × ℚ)) :
    ∀ cur : ℚ, List.Chain' (· ≤ ·) (cur :: bs.map Prod.snd) →
      cur ≤ marginalScan x cur bs := by
  induction bs with
  | nil => intro cur _; exact le_refl cur
  | cons hd rest ih =>
    intro cur hchain
    obtain ⟨t, r⟩ := hd
    simp only [List.map_cons] at hchain
    obtain ⟨h1, h2⟩ := List.chain'_cons.mp hchain
    rw [marginalScan]
    by_cases hxt : x ≥ t
    · rw [if_pos hxt]
      exact le_trans h1 (ih r h2)
    · rw [if_neg hxt]

/-- Monotonicity of the scanning loop in the income, for a rate sequence
that is non-decreasing from the starting candidate onwards. -/
lemma marginalScan_mono (a b : ℚ) (hab : a ≤ b) (bs : List (ℚ × ℚ)) :
    ∀ cur : ℚ, List.Chain' (· ≤ ·) (cur :: bs.map Prod.snd) →
      marginalScan a cur bs ≤ marginalScan b cur bs := by
  induction bs with
  | nil => intro cur _; exact le_refl cur
  | cons hd rest ih =>
    intro cur hchain
    obtain ⟨t, r⟩ := hd
    simp only [List.map_cons] at hchain
    obtain ⟨h1, h2⟩ := List.chain'_cons.mp hchain
    rw [marginalScan, marginalScan]
    by_cases hat : a ≥ t
    · rw [if_pos hat, if_pos (le_trans hat hab)]
      exact ih r h2
    · rw [if_neg hat]
      by_cases hbt : b ≥ t
      · rw [if_pos hbt]
        exact le_trans h1 (le_marginalScan b rest r h2)
      · rw [if_neg hbt]

/-- C1: for every fund record and state code the four proportions returned
by `calculate_tax_proportions` sum exactly to 1, the fourth being the
residual `1 - (ps + pm + pg)`. -/
theorem proportions_sum_to_one (fund : FundRecord) (state : String) :
    (calculate_tax_proportions fund state).ps + (calculate_tax_proportions fund state).pm +
      (calculate_tax_proportions fund state).pg + (calculate_tax_proportions fund state).pt = 1 := by
  simp only [calculate_tax_proportions]
  ring

/-- C2: `calculate_tax_equivalent_yield` returns the raw fund yield
unchanged when `denom = 1 - fed_rate - state_rate` is non-positive, and
otherwise returns `yield * (ps/denom + pm*(1-state_rate)/denom +
pg*(1-fed_rate)/denom + pt)`, the `pt` term undivided. -/
theorem tax_equivalent_yield_eq (y f s ps pm pg pt : ℚ) :
    calculate_tax_equivalent_yield y f s ps pm pg pt =
      if 1 - f - s ≤ 0 then y
      else
        y * (ps / (1 - f - s) + pm * (1 - s) / (1 - f - s) +
          pg * (1 - f) / (1 - f - s) + pt) := rfl

/-- C3: the state-exempt proportion equals the fund's municipal percentage
exactly when the fund's name matches the investor's state and the state is
not New Jersey or the municipal percentage is at least 0.8; otherwise it
is 0. -/
theorem ps_characterization (fund : FundRecord) (state : String) :
    calculate_ps fund state =
      if find_state_in_fund_name fund state ∧
          (lowerStr state ≠ "nj" ∨ calculate_muni_percent fund ≥ 0.8)
      then calculate_muni_percent fund
      else 0 := rfl

/-- C4: the government-obligation proportion equals the sum of the two
government-debt fields (missing treated as 0), gated for the states CA,
NY and CT by the inclusive 0.5 threshold and returned raw for every other
state code. -/
theorem pg_characterization (fund : FundRecord) (state : String) :
    calculate_pg fund state =
      if state ∈ FIFTY_PERCENT_STATES then
        (if fund.usTreasuryDebt.getD 0 + fund.usGovernmentAgencyDebt.getD 0 ≥ 0.5
         then fund.usTreasuryDebt.getD 0 + fund.usGovernmentAgencyDebt.getD 0
         else 0)
      else fund.usTreasuryDebt.getD 0 + fund.usGovernmentAgencyDebt.getD 0 := by
  simp only [calculate_pg]
  by_cases hmem : state ∈ FIFTY_PERCENT_STATES
  · by_cases hge : fund.usTreasuryDebt.getD 0 + fund.usGovernmentAgencyDebt.getD 0 ≥ (0.5 : ℚ)
    · rw [if_neg (fun h => absurd h.2 (not_lt.mpr hge)), if_pos hmem, if_pos hge]
    · rw [if_pos ⟨hmem, not_le.mp hge⟩, if_pos hmem, if_neg hge]
  · rw [if_neg (fun h => hmem h.1), if_neg hmem]

end MMF

namespace MMF

/-- C5: on a non-empty bracket table sorted ascending by threshold,
`get_marginal_rate` returns the rate of the last bracket whose threshold
is at most the income, and the first bracket's rate when the income lies
below every threshold (the two cases of `marginalRateSpec`). -/
theorem marginal_rate_spec_correct (income : ℚ) (bs : List (ℚ × ℚ))
    (hne : bs ≠ []) (hsort : List.Pairwise (fun x y => x.1 ≤ y.1) bs) :
    get_marginal_rate income bs = marginalRateSpec income bs := by
  cases bs with
  | nil => exact absurd rfl hne
  | cons hd rest =>
    obtain ⟨t0, r0⟩ := hd
    rw [get_marginal_rate, marginalScan_filter income _ hsort r0, marginalRateSpec]
    cases hfe : (((t0, r0) :: rest).filter fun b => decide (b.1 ≤ income)).getLast? with
    | none => simp [hfe]
    | some b => simp [hfe]

/-- C5 witness: the characterization at income 5 over the concrete sorted
table [(0, 1/2), (10, 1/5)]. -/
theorem marginal_rate_spec_correct_witness :
    ([((0 : ℚ), (1 : ℚ)/2), (10, 1/5)] ≠ ([] : List (ℚ × ℚ))) ∧
    List.Pairwise (fun x y : ℚ × ℚ => x.1 ≤ y.1) [((0 : ℚ), (1 : ℚ)/2), (10, 1/5)] ∧
    get_marginal_rate 5 [((0 : ℚ), (1 : ℚ)/2), (10, 1/5)] =
      marginalRateSpec 5 [((0 : ℚ), (1 : ℚ)/2), (10, 1/5)] :=
  ⟨by simp, by norm_num [List.pairwise_cons],
    marginal_rate_spec_correct 5 _ (by simp) (by norm_num [List.pairwise_cons])⟩

/-- C6: the state-exempt and other-municipal proportions are mutually
exclusive: a positive `calculate_ps` forces `calculate_pm` to 0 and a
positive `calculate_pm` forces `calculate_ps` to 0. -/
theorem ps_pm_mutually_exclusive (fund : FundRecord) (state : String) :
    (0 < calculate_ps fund state → calculate_pm fund state = 0) ∧
    (0 < calculate_pm fund state → calculate_ps fund state = 0) := by
  by_cases hin : find_state_in_fund_name fund state
  · refine ⟨fun _ => ?_, fun hpm => ?_⟩
    · simp [calculate_pm, hin]
    · rw [calculate_pm] at hpm
      simp [hin] at hpm
  · refine ⟨fun hps => ?_, fun _ => ?_⟩
    · rw [calculate_ps] at hps
      simp [hin] at hps
    · simp [calculate_ps, hin]

/-- C6 witness: the New York fund has a positive state-exempt proportion
for state "NY", and its other-municipal proportion is then 0. -/
theorem ps_pm_mutually_exclusive_witness :
    0 < calculate_ps nyFund "NY" ∧ calculate_pm nyFund "NY" = 0 := by
  have hf : find_state_in_fund_name nyFund "NY" = true := by decide
  have hnj : lowerStr "NY" ≠ "nj" := by decide
  have hps : 0 < calculate_ps nyFund "NY" := by
    rw [calculate_ps]
    simp only [hf, hnj]
    norm_num [calculate_muni_percent, nyFund]
  exact ⟨hps, (ps_pm_mutually_exclusive nyFund "NY").1 hps⟩

/-- C7 counterexample: on the table [(0, 1/2), (10, 1/5)], sorted
ascending by threshold, the marginal rate at income 5 exceeds the
marginal rate at income 15, so the resolver is not monotone in income
under the claim's hypotheses alone. -/
theorem marginal_rate_not_monotone :
    List.Pairwise (fun x y : ℚ × ℚ => x.1 ≤ y.1) [((0 : ℚ), (1 : ℚ)/2), (10, 1/5)] ∧
    (5 : ℚ) ≤ 15 ∧
    get_marginal_rate 5 [((0 : ℚ), (1 : ℚ)/2), (10, 1/5)] = some (1/2) ∧
    get_marginal_rate 15 [((0 : ℚ), (1 : ℚ)/2), (10, 1/5)] = some (1/5) ∧
    ¬ ((1 : ℚ)/2 ≤ 1/5) := by
  refine ⟨by norm_num [List.pairwise_cons], by norm_num, ?_, ?_, by norm_num⟩
  · rw [get_marginal_rate]
    norm_num [marginalScan]
  · rw [get_marginal_rate]
    norm_num [marginalScan]

/-- C7 amended: on a non-empty bracket table sorted ascending by threshold
whose rates are also non-decreasing in table order, the marginal-rate
resolver is monotone non-decreasing in income. -/
theorem marginal_rate_monotone (a b : ℚ) (bs : List (ℚ × ℚ)) (hne : bs ≠ [])
    (hsort : List.Pairwise (fun x y => x.1 ≤ y.1) bs)
    (hrates : List.Chain' (· ≤ ·) (bs.map Prod.snd)) (hab : a ≤ b) :
    ∃ ra rb, get_marginal_rate a bs = some ra ∧
      get_marginal_rate b bs = some rb ∧ ra ≤ rb := by
  cases bs with
  | nil => exact absurd rfl hne
  | cons hd rest =>
    obtain ⟨t0, r0⟩ := hd
    refine ⟨_, _, rfl, rfl, ?_⟩
    apply marginalScan_mono a b hab
    simp only [List.map_cons] at hrates ⊢
    exact List.chain'_cons.mpr ⟨le_refl r0, hrates⟩

/-- C7 amended witness: monotonicity at incomes 0 ≤ 20 over the concrete
table [(0, 1/10), (10, 1/2)], whose thresholds and rates both ascend. -/
theorem marginal_rate_monotone_witness :
    ([((0 : ℚ), (1 : ℚ)/10), (10, 1/2)] ≠ ([] : List (ℚ × ℚ))) ∧
    (0 : ℚ) ≤ 20 ∧
    ∃ ra rb, get_marginal_rate 0 [((0 : ℚ), (1 : ℚ)/10), (10, 1/2)] = some ra ∧
      get_marginal_rate 20 [((0 : ℚ), (1 : ℚ)/10), (10, 1/2)] = some rb ∧ ra ≤ rb :=
  ⟨by simp, by norm_num,
    marginal_rate_monotone 0 20 _ (by simp) (by norm_num [List.pairwise_cons])
      (by norm_num [List.chain'_cons]) (by norm_num)⟩

/-- C8 counterexample: on the empty bracket table the Python code raises
`IndexError` at `brackets[0][1]`; the model accordingly returns no rate,
refuting the claim for arbitrary (possibly empty) bracket tables. -/
theorem marginal_rate_empty_fails :
    get_marginal_rate 0 ([] : List (ℚ × ℚ)) = none := rfl

/-- C8 amended: on every non-empty bracket table `get_marginal_rate`
returns a rate, and a single-bracket table degenerates to a flat rate. -/
theorem marginal_rate_total (income t r : ℚ) (bs : List (ℚ × ℚ)) (hne : bs ≠ []) :
    (∃ rr, get_marginal_rate income bs = some rr) ∧
    get_marginal_rate income [(t, r)] = some r := by
  constructor
  · cases bs with
    | nil => exact absurd rfl hne
    | cons hd rest =>
      obtain ⟨t0, r0⟩ := hd
      exact ⟨_, rfl⟩
  · rw [get_marginal_rate, marginalScan]
    split
    · rfl
    · rfl

/-- C8 amended witness: the singleton table [(7, 3)] yields the flat
rate 3 at income 0. -/
theorem marginal_rate_total_witness :
    ([((7 : ℚ), (3 : ℚ))] ≠ ([] : List (ℚ × ℚ))) ∧
    (∃ rr, get_marginal_rate 0 [((7 : ℚ), (3 : ℚ))] = some rr) ∧
    get_marginal_rate 0 [((7 : ℚ), (3 : ℚ))] = some 3 := by
  have h := marginal_rate_total 0 7 3 [((7 : ℚ), (3 : ℚ))] (by simp)
  exact ⟨by simp, h.1, h.2⟩

/-- C9: when `denom = 1 - fed_rate - state_rate` is positive, multiplying
the tax-equivalent yield by `denom` — taxing it as a fully taxable
investment — recovers the after-tax yield. -/
theorem yield_round_trip (y f s ps pm pg pt : ℚ) (h : 0 < 1 - f - s) :
    calculate_tax_equivalent_yield y f s ps pm pg pt * (1 - f - s) =
      calculate_after_tax_yield y f s ps pm pg pt := by
  have hne : (1 - f - s) ≠ 0 := ne_of_gt h
  rw [calculate_tax_equivalent_yield, calculate_after_tax_yield]
  rw [if_neg (not_le.mpr h)]
  field_simp

/-- C9 witness: the round trip at the spec's example rates fed = 1/5 and
state = 1/10 with a fully taxable fund of yield 7/2. -/
theorem yield_round_trip_witness :
    (0 : ℚ) < 1 - 1/5 - 1/10 ∧
    calculate_tax_equivalent_yield (7/2) (1/5) (1/10) 0 0 0 1 * (1 - 1/5 - 1/10) =
      calculate_after_tax_yield (7/2) (1/5) (1/10) 0 0 0 1 :=
  ⟨by norm_num, yield_round_trip (7/2) (1/5) (1/10) 0 0 0 1 (by norm_num)⟩

/-- C10: a fund whose name matches New Jersey with municipal percentage
strictly between 0 and 0.8 gets both a zero state-exempt and a zero
other-municipal proportion, so its municipal share falls entirely into
the fully taxable residual `pt = 1 - pg`. -/
theorem nj_below_threshold_fully_taxable (fund : FundRecord)
    (h1 : find_state_in_fund_name fund "NJ" = true)
    (h2 : 0 < calculate_muni_percent fund)
    (h3 : calculate_muni_percent fund < 0.8) :
    (calculate_tax_proportions fund "NJ").ps = 0 ∧
    (calculate_tax_proportions fund "NJ").pm = 0 ∧
    (calculate_tax_proportions fund "NJ").pt =
      1 - (calculate_tax_proportions fund "NJ").pg := by
  have hnj : lowerStr "NJ" = "nj" := by decide
  have hps : calculate_ps fund "NJ" = 0 := by
    rw [calculate_ps]
    simp [hnj, not_le.mpr h3]
  have hpm : calculate_pm fund "NJ" = 0 := by
    rw [calculate_pm]
    simp [h1]
  refine ⟨?_, ?_, ?_⟩
  · simp [calculate_tax_proportions, hps]
  · simp [calculate_tax_proportions, hpm]
  · simp only [calculate_tax_proportions, hps, hpm]
    ring

/-- C10 witness: the New Jersey fund with municipal percentage 1/2. -/
theorem nj_below_threshold_fully_taxable_witness :
    find_state_in_fund_name njFund "NJ" = true ∧
    0 < calculate_muni_percent njFund ∧
    calculate_muni_percent njFund < 0.8 ∧
    ((calculate_tax_proportions njFund "NJ").ps = 0 ∧
     (calculate_tax_proportions njFund "NJ").pm = 0 ∧
     (calculate_tax_proportions njFund "NJ").pt =
       1 - (calculate_tax_proportions njFund "NJ").pg) :=
  ⟨by decide, by norm_num [calculate_muni_percent, njFund],
    by norm_num [calculate_muni_percent, njFund],
    nj_below_threshold_fully_taxable njFund (by decide)
      (by norm_num [calculate_muni_percent, njFund])
      (by norm_num [calculate_muni_percent, njFund])⟩

end MMF
